import Mathlib

/-!
Verification of the StockApp indicator and backtest engine
(`stock_data_manager.py` and `trading_strategy.py`).

Modelling conventions:
* A pandas/numpy float cell is an `FVal`: a finite value (represented exactly
  as a rational), `inf`, `-inf`, or NaN, with IEEE-754 propagation rules for
  the operations the code actually performs.  Exact rational arithmetic
  stands in for finite `float` arithmetic.
* A price frame is represented by the lists of the columns the code reads;
  a row of the signal frame handed to `backtest` is a `DayRow`.
* Python exceptions are modelled with `Except PyErr`.
-/

namespace StockApp

/-- A pandas/numpy float cell: a finite value (modelled exactly as a
rational), positive infinity, negative infinity, or NaN. -/
inductive FVal where
  | fin (q : ℚ)
  | inf
  | ninf
  | nan
  deriving DecidableEq

/-- IEEE-754 addition on `FVal` cells (NaN propagates; `inf + -inf` is NaN). -/
def fadd : FVal → FVal → FVal
  | .nan, _ => .nan
  | _, .nan => .nan
  | .fin a, .fin b => .fin (a + b)
  | .fin _, .inf => .inf
  | .inf, .fin _ => .inf
  | .inf, .inf => .inf
  | .fin _, .ninf => .ninf
  | .ninf, .fin _ => .ninf
  | .ninf, .ninf => .ninf
  | .inf, .ninf => .nan
  | .ninf, .inf => .nan

/-- IEEE-754 subtraction on `FVal` cells. -/
def fsub : FVal → FVal → FVal
  | .nan, _ => .nan
  | _, .nan => .nan
  | .fin a, .fin b => .fin (a - b)
  | .fin _, .inf => .ninf
  | .inf, .fin _ => .inf
  | .inf, .inf => .nan
  | .fin _, .ninf => .inf
  | .ninf, .fin _ => .ninf
  | .ninf, .ninf => .nan
  | .inf, .ninf => .inf
  | .ninf, .inf => .ninf

/-- IEEE-754 multiplication on `FVal` cells (`inf * 0` is NaN). -/
def fmul : FVal → FVal → FVal
  | .nan, _ => .nan
  | _, .nan => .nan
  | .fin a, .fin b => .fin (a * b)
  | .fin a, .inf => if 0 < a then .inf else if a < 0 then .ninf else .nan
  | .inf, .fin b => if 0 < b then .inf else if b < 0 then .ninf else .nan
  | .fin a, .ninf => if 0 < a then .ninf else if a < 0 then .inf else .nan
  | .ninf, .fin b => if 0 < b then .ninf else if b < 0 then .inf else .nan
  | .inf, .inf => .inf
  | .ninf, .ninf => .inf
  | .inf, .ninf => .ninf
  | .ninf, .inf => .ninf

/-- IEEE-754 division on `FVal` cells, as numpy performs it on series:
a nonzero finite value divided by (positive) zero is a signed infinity,
`0 / 0` is NaN, and a finite value divided by an infinity is zero. -/
def fdiv : FVal → FVal → FVal
  | .nan, _ => .nan
  | _, .nan => .nan
  | .fin a, .fin b =>
      if b = 0 then (if 0 < a then .inf else if a < 0 then .ninf else .nan)
      else .fin (a / b)
  | .fin _, .inf => .fin 0
  | .fin _, .ninf => .fin 0
  | .inf, .fin b => if b < 0 then .ninf else .inf
  | .ninf, .fin b => if b < 0 then .inf else .ninf
  | .inf, .inf => .nan
  | .inf, .ninf => .nan
  | .ninf, .inf => .nan
  | .ninf, .ninf => .nan

/-! ## IndicatorEngine (`stock_data_manager.py`) -/

/-- Embeds `series.rolling(window=p).mean()`: entry `i` is the arithmetic
mean of the trailing `p` observations ending at `i` (inclusive), and is NaN
while fewer than `p` observations are available (pandas uses
`min_periods = window` by default).  A non-positive window cannot reach this
point in pandas; the embedding returns NaN there. -/
def rollingMean (p : ℕ) (xs : List ℚ) : List FVal :=
  (List.range xs.length).map fun i =>
    if p ≤ i + 1 ∧ 0 < p then .fin (((xs.drop (i + 1 - p)).take p).sum / (p : ℚ))
    else .nan

/-- Embeds `StockDataManager.calculate_ma`: for each requested period `p`
the column `MA{p}` is the rolling mean of the close column.  The source
performs no input validation: an empty close series simply yields empty
columns, and no exception type is defined or raised on this path. -/
def calculate_ma (closes : List ℚ) (periods : List ℕ) : List (ℕ × List FVal) :=
  periods.map fun p => (p, rollingMean p closes)

/-- Recursive worker for `ema`: `acc` is the running exponential average,
already seeded; `a` is the smoothing factor. -/
def emaFrom (a : ℚ) (acc : ℚ) : List ℚ → List ℚ
  | [] => [acc]
  | x :: xs => acc :: emaFrom a (a * x + (1 - a) * acc) xs

/-- Embeds `series.ewm(span=n, adjust=False).mean()`: smoothing factor
`2 / (span + 1)`, seeded so the first output equals the first observation. -/
def ema (span : ℕ) (xs : List ℚ) : List ℚ :=
  match xs with
  | [] => []
  | x :: rest => emaFrom (2 / (span + 1 : ℚ)) x rest

/-- Embeds `StockDataManager.calculate_macd`: returns the columns
`(EMA12, EMA26, DIF, DEA, MACD)` computed from the close series. -/
def calculate_macd (closes : List ℚ) :
    List ℚ × List ℚ × List ℚ × List ℚ × List ℚ :=
  let ema12 := ema 12 closes
  let ema26 := ema 26 closes
  let dif := List.zipWith (fun a b => a - b) ema12 ema26
  let dea := ema 9 dif
  let macd := List.zipWith (fun a b => 2 * (a - b)) dif dea
  (ema12, ema26, dif, dea, macd)

/-- Embeds `close.diff()`: the first entry is NaN, entry `i` (for `i ≥ 1`)
is `close[i] - close[i-1]`. -/
def diffSeries (xs : List ℚ) : List FVal :=
  match xs with
  | [] => []
  | x :: rest => .nan :: List.zipWith (fun a b => .fin (b - a)) (x :: rest) rest

/-- Embeds `delta.where(delta > 0, 0)`: keeps a delta where it is positive,
otherwise substitutes 0.  A NaN delta compares false and is replaced by 0,
so the result is a plain (finite) series. -/
def gainSeries (xs : List ℚ) : List ℚ :=
  (diffSeries xs).map fun d =>
    match d with
    | .fin q => if 0 < q then q else 0
    | _ => 0

/-- Embeds `-delta.where(delta < 0, 0)`: keeps a delta where it is negative
and negates it, otherwise 0 (again NaN compares false and becomes 0). -/
def lossSeries (xs : List ℚ) : List ℚ :=
  (diffSeries xs).map fun d =>
    match d with
    | .fin q => if q < 0 then -q else 0
    | _ => 0

/-- Embeds `StockDataManager.calculate_rsi`: the `RSI{period}` column.
`gain` and `loss` are trailing-`period` means of the clipped deltas,
`rs = gain / loss` (float division, so `x / 0 = inf` for `x > 0` and
`0 / 0 = NaN`), and `RSI = 100 - 100 / (1 + rs)`.  The source performs no
input validation: an empty close series yields an empty column and no
exception type is defined or raised on this path. -/
def calculate_rsi (closes : List ℚ) (period : ℕ) : List FVal :=
  let gain := rollingMean period (gainSeries closes)
  let loss := rollingMean period (lossSeries closes)
  let rs := List.zipWith fdiv gain loss
  rs.map fun r => fsub (.fin 100) (fdiv (.fin 100) (fadd (.fin 1) r))

/-! ## SignalGenerator: `TradingStrategy.macd_strategy` -/

/-- Comparison of two optional cells where `none` stands for the NaN
produced by `shift(1)` at the first row: any comparison with NaN is false. -/
def optLE : Option ℚ → Option ℚ → Bool
  | some a, some b => decide (a ≤ b)
  | _, _ => false

/-- Dual of `optLE` for the `>=` comparison in the death-cross condition. -/
def optGE : Option ℚ → Option ℚ → Bool
  | some a, some b => decide (b ≤ a)
  | _, _ => false

/-- Strict `>` on optional cells, false when either side is missing/NaN. -/
def optGT : Option ℚ → Option ℚ → Bool
  | some a, some b => decide (b < a)
  | _, _ => false

/-- Strict `<` on optional cells, false when either side is missing/NaN. -/
def optLT : Option ℚ → Option ℚ → Bool
  | some a, some b => decide (a < b)
  | _, _ => false

/-- Embeds `series.shift(1)` read at row `i`: NaN (`none`) at the first row,
otherwise the value at row `i - 1`. -/
def shift1 (l : List ℚ) (i : ℕ) : Option ℚ :=
  if i = 0 then none else l.get? (i - 1)

/-- The `signal` column of `TradingStrategy.macd_strategy` at row `i`,
given the `DIF` and `DEA` columns: initialized to 0, set to 1 on a golden
cross (`DIF > DEA` and yesterday `DIF <= DEA`), set to -1 on a death cross
(`DIF < DEA` and yesterday `DIF >= DEA`).  The two `.loc` assignments have
disjoint conditions; the later (death-cross) assignment wins on overlap. -/
def macdSignal (dif dea : List ℚ) (i : ℕ) : ℤ :=
  let up := optGT (dif.get? i) (dea.get? i) && optLE (shift1 dif i) (shift1 dea i)
  let dn := optLT (dif.get? i) (dea.get? i) && optGE (shift1 dif i) (shift1 dea i)
  if dn then -1 else if up then 1 else 0

/-- Embeds `TradingStrategy.macd_strategy`: the `signal` value at row `i`
of the MACD strategy frame computed from the close series. -/
def macd_strategy (closes : List ℚ) (i : ℕ) : ℤ :=
  let m := calculate_macd closes
  macdSignal m.2.2.1 m.2.2.2.1 i

/-! ## BacktestSimulator (`TradingStrategy.backtest`, simulation loop) -/

/-- A float trigger cell of the `position`/`signal` column: either a finite
number or the NaN produced by `diff()`/`shift()` warm-up rows. -/
inductive SigVal where
  | num (q : ℚ)
  | nan
  deriving DecidableEq

/-- One row of the frame handed to `backtest`.  Column presence is modelled
per row (`none` means the frame has no such column; frames built by pandas
have uniform columns, so all rows of one frame agree). -/
structure DayRow where
  posVal : Option SigVal
  sigVal : Option SigVal
  close : ℚ
  deriving DecidableEq

/-- The Python exceptions reachable from (or named about) the backtest
engine.  `keyError` is raised by pandas on a missing column lookup;
`indexError` is what positional indexing past the end would raise.
`missingSignalError`, `invalidPriceError`, `insufficientDataError` and
`invalidParameterError` are the exception names used by the specification;
no class of any of these names exists anywhere in the source, and no code
path constructs them — they are included only so that statements about the
specification's error taxonomy can be expressed. -/
inductive PyErr where
  | keyError (col : String)
  | indexError
  | missingSignalError
  | invalidPriceError
  | insufficientDataError
  | invalidParameterError
  deriving DecidableEq

/-- Trade side. -/
inductive Side where
  | buy
  | sell
  deriving DecidableEq

/-- One entry of the trade log (`trades.append({...})`); `date` is the row
index of the day the trade was made. -/
structure Trade where
  date : ℕ
  side : Side
  price : ℚ
  shares : ℤ
  value : ℚ
  deriving DecidableEq

/-- The simulator's loop state: cash, position, the trade log, and the
recorded equity curve (`portfolio_value`), each entry `(row index, value)`. -/
structure SimState where
  cash : ℚ
  position : ℤ
  trades : List Trade
  portfolio_value : List (ℕ × ℚ)
  deriving DecidableEq

/-- Python `==` between a float trigger cell and an integer literal:
NaN compares unequal to everything. -/
def pyEq (v : SigVal) (q : ℚ) : Bool :=
  match v with
  | .num x => decide (x = q)
  | .nan => false

/-- Python `int()` on a float: truncation toward zero. -/
def pyInt (q : ℚ) : ℤ :=
  if 0 ≤ q then ⌊q⌋ else ⌈q⌉

/-- Embeds the trigger selection

`signal = row['position'] if 'position' in row else row['signal']`

where reading a missing `signal` column raises `KeyError('signal')`. -/
def getTrigger (row : DayRow) : Except PyErr SigVal :=
  match row.posVal with
  | some v => .ok v
  | none =>
    match row.sigVal with
    | some v => .ok v
    | none => .error (.keyError "signal")

/-- Embeds the per-day trading rules of `TradingStrategy.backtest`:
on trigger `1` with `cash > 0`, buy `int(cash / close)` shares (all-in);
on trigger `-1` with `position > 0`, sell the whole position; otherwise do
nothing.  Note the buy branch checks only `cash > 0`, not the position. -/
def applyTrigger (s : SimState) (d : ℕ) (close : ℚ) (signal : SigVal) : SimState :=
  if pyEq signal 1 then
    if 0 < s.cash then
      let shares := pyInt (s.cash / close)
      let cost := (shares : ℚ) * close
      { s with cash := s.cash - cost
             , position := s.position + shares
             , trades := s.trades ++ [⟨d, .buy, close, shares, cost⟩] }
    else s
  else if pyEq signal (-1) then
    if 0 < s.position then
      let value := (s.position : ℚ) * close
      { s with cash := s.cash + value
             , trades := s.trades ++ [⟨d, .sell, close, s.position, value⟩]
             , position := 0 }
    else s
  else s

/-- Embeds the unconditional end-of-day append

`portfolio_value.append({'date': date, 'value': cash + position * row['close']})`. -/
def recordDay (s : SimState) (d : ℕ) (close : ℚ) : SimState :=
  { s with portfolio_value := s.portfolio_value ++ [(d, s.cash + (s.position : ℚ) * close)] }

/-- One iteration of the `for date, row in strategy_data.iterrows()` loop. -/
def stepDay (s : SimState) (d : ℕ) (row : DayRow) : Except PyErr SimState :=
  match getTrigger row with
  | .error e => .error e
  | .ok v => .ok (recordDay (applyTrigger s d row.close v) d row.close)

/-- The whole simulation loop over the rows, `d` being the index of the
next row; an exception aborts the loop (and the call) immediately. -/
def runDays : SimState → ℕ → List DayRow → Except PyErr SimState
  | s, _, [] => .ok s
  | s, d, row :: rows =>
    match stepDay s d row with
    | .error e => .error e
    | .ok s' => runDays s' (d + 1) rows

/-! ## PerformanceAnalyzer (`TradingStrategy.backtest`, statistics block)

The statistics use real-valued square roots, so their values live in
`RFloat` (a real number or NaN); everything upstream of the square roots
stays rational and executable.  A zero equity value would make pandas
`pct_change` produce a non-finite return; the embedding uses total rational
division there, and the theorems about the statistics therefore assume all
equity values are nonzero. -/

/-- Embeds `portfolio_df['value'].pct_change()` with the leading NaN already
dropped (pandas `mean`/`std` skip it): entry `i` is
`(v[i+1] - v[i]) / v[i]`.  The entries are rational, which is exact for
pandas precisely when every denominator `v[i]` is nonzero; at a zero equity
value (reachable only from zero initial cash) pandas instead produces a
NaN/inf return that this list does not represent, so every theorem about
the returns statistics carries the hypothesis that all equity values are
nonzero. -/
def pctChange (vs : List ℚ) : List ℚ :=
  List.zipWith (fun a b => (b - a) / a) vs vs.tail

/-- Embeds `series.mean()` on an all-finite series: NaN when there are no
observations. -/
def seriesMean (l : List ℚ) : FVal :=
  if l.isEmpty then .nan else .fin (l.sum / (l.length : ℚ))

/-- Embeds the square of `series.std()` (pandas default `ddof = 1`): the
sample variance, NaN when there are fewer than two observations. -/
def seriesVar (l : List ℚ) : FVal :=
  if l.length < 2 then .nan
  else .fin ((l.map fun x => (x - l.sum / (l.length : ℚ)) ^ 2).sum / ((l.length : ℚ) - 1))

/-- A float whose finite values may be irrational (results of `np.sqrt`). -/
inductive RFloat where
  | val (x : ℝ)
  | nan

/-- Multiplication on `RFloat` (NaN propagates; no infinities arise in the
statistics of an all-finite, nonzero equity curve). -/
noncomputable def rmul : RFloat → RFloat → RFloat
  | .val a, .val b => .val (a * b)
  | _, _ => .nan

/-- Division on `RFloat` (NaN propagates).  The finite/finite case uses
Lean's total real division; every use below has a nonzero denominator. -/
noncomputable def rdiv : RFloat → RFloat → RFloat
  | .val a, .val b => .val (a / b)
  | _, _ => .nan

/-- Injection of a rational float cell into `RFloat`. -/
noncomputable def fvalToR : FVal → RFloat
  | .fin q => .val (q : ℝ)
  | _ => .nan

/-- Embeds `series.std()`: the square root of the sample variance. -/
noncomputable def seriesStd (l : List ℚ) : RFloat :=
  match seriesVar l with
  | .fin v => .val (Real.sqrt v)
  | _ => .nan

/-- The guard `returns.std() != 0` of the Python conditional expression.
When the std is NaN (fewer than two returns) the Python comparison
`nan != 0` is `True`, so the division branch is taken.  For a sample
variance `v ≥ 0`, `sqrt v = 0` exactly when `v = 0`, so the guard is
decided on the rational variance. -/
def stdNeZero (l : List ℚ) : Bool :=
  match seriesVar l with
  | .fin v => decide (v ≠ 0)
  | _ => true

/-- Embeds
`(returns.mean() * 252) / (returns.std() * np.sqrt(252)) if returns.std() != 0 else 0`. -/
noncomputable def sharpeRatio (rets : List ℚ) : RFloat :=
  if stdNeZero rets then
    rdiv (rmul (fvalToR (seriesMean rets)) (.val 252))
         (rmul (seriesStd rets) (.val (Real.sqrt 252)))
  else .val 0

/-- Embeds `series.cummax()`: the running maximum. -/
def cummax (l : List ℚ) : List ℚ :=
  match l with
  | [] => []
  | x :: xs => xs.scanl max x

/-- Folding operation for `series.min()` with pandas' NaN-skipping: NaN
entries are ignored (NaN is the fold's identity, so an empty or all-NaN
series yields NaN) and signed infinities participate in the order, `-inf`
below and `inf` above every finite value. -/
def fminSkip : FVal → FVal → FVal
  | .nan, x => x
  | x, .nan => x
  | .ninf, _ => .ninf
  | _, .ninf => .ninf
  | .inf, x => x
  | x, .inf => x
  | .fin p, .fin q => .fin (min p q)

/-- Embeds `(portfolio_df['value'] / portfolio_df['value'].cummax() - 1).min() * 100`
with float division (`fdiv`), so a zero running maximum behaves as in
numpy — in particular the all-zero equity curve from zero initial cash
gives `0 / 0 = NaN` entries and a NaN drawdown — and with the NaN-skipping
minimum of pandas. -/
def maxDrawdown (values : List ℚ) : FVal :=
  fmul ((List.zipWith (fun v m => fsub (fdiv (.fin v) (.fin m)) (.fin 1)) values
    (cummax values)).foldl fminSkip .nan) (.fin 100)

/-- The `stats` dictionary of `TradingStrategy.backtest`. -/
structure Stats where
  initial_capital : ℚ
  final_capital : ℚ
  total_return : FVal
  annual_return : FVal
  volatility : RFloat
  sharpe_ratio : RFloat
  max_drawdown : FVal
  trade_count : ℕ

/-- The bundled return value of `TradingStrategy.backtest`. -/
structure BacktestResult where
  stats : Stats
  trades : List Trade
  portfolio_value : List (ℕ × ℚ)

/-- Embeds the statistics block of `TradingStrategy.backtest` (lines
130-144).  On an empty portfolio list, `pd.DataFrame([])` has no columns at
all, so `set_index('date', inplace=True)` raises `KeyError` before
`iloc[-1]` is ever reached; on a nonempty portfolio every statistic is
computed and returned.  `total_return` divides by `initial_cash` with float
division (`fdiv`), so a zero initial cash yields NaN or a signed infinity
exactly as numpy does. -/
noncomputable def statsPhase (pv : List (ℕ × ℚ)) (trades : List Trade)
    (initial_cash : ℚ) : Except PyErr Stats :=
  match pv with
  | [] => .error (.keyError "date")
  | p :: ps =>
    let values := (p :: ps).map Prod.snd
    let rets := pctChange values
    let finalCap := (List.getLast (p :: ps) (List.cons_ne_nil p ps)).2
    .ok { initial_capital := initial_cash
        , final_capital := finalCap
        , total_return := fmul (fdiv (.fin (finalCap - initial_cash)) (.fin initial_cash)) (.fin 100)
        , annual_return := fmul (fmul (seriesMean rets) (.fin 252)) (.fin 100)
        , volatility := rmul (rmul (seriesStd rets) (.val (Real.sqrt 252))) (.val 100)
        , sharpe_ratio := sharpeRatio rets
        , max_drawdown := maxDrawdown values
        , trade_count := trades.length }

/-- Embeds `TradingStrategy.backtest`: run the simulation loop over the
rows, then compute the statistics; any exception propagates to the caller
and no partial result is returned. -/
noncomputable def backtest (rows : List DayRow) (initial_cash : ℚ) :
    Except PyErr BacktestResult :=
  match runDays ⟨initial_cash, 0, [], []⟩ 0 rows with
  | .error e => .error e
  | .ok s =>
    match statsPhase s.portfolio_value s.trades initial_cash with
    | .error e => .error e
    | .ok st => .ok ⟨st, s.trades, s.portfolio_value⟩

/-- Sum of the logged shares over the `buy` trades of a trade log. -/
def buySharesSum (ts : List Trade) : ℤ :=
  ((ts.filter fun t => decide (t.side = Side.buy)).map Trade.shares).sum

/-- Sum of the logged shares over the `sell` trades of a trade log. -/
def sellSharesSum (ts : List Trade) : ℤ :=
  ((ts.filter fun t => decide (t.side = Side.sell)).map Trade.shares).sum

/-! ## Helper lemmas -/

/-- Comparison with the missing first shifted value is always false. -/
@[simp]
theorem optLE_none_left (x : Option ℚ) : optLE none x = false := by
  cases x <;> rfl

/-- Comparison with the missing first shifted value is always false. -/
@[simp]
theorem optGE_none_left (x : Option ℚ) : optGE none x = false := by
  cases x <;> rfl

/-- The MACD signal at row 0 is 0, whatever the `DIF`/`DEA` columns are:
both crossing conditions compare against `shift(1)` which is NaN there. -/
theorem macdSignal_zero (dif dea : List ℚ) : macdSignal dif dea 0 = 0 := by
  simp [macdSignal, shift1]

/-- Indexing a `zipWith` where both sides are defined. -/
theorem get?_zipWith {α β γ : Type} (f : α → β → γ) :
    ∀ (as : List α) (bs : List β) (i : ℕ) (a : α) (b : β),
      as.get? i = some a → bs.get? i = some b →
      (List.zipWith f as bs).get? i = some (f a b) := by
  intro as
  induction as with
  | nil => intro bs i a b ha; simp at ha
  | cons x xs ih =>
    intro bs i a b ha hb
    cases bs with
    | nil => simp at hb
    | cons y ys =>
      cases i with
      | zero =>
        simp only [List.get?] at ha hb
        injection ha with ha; injection hb with hb
        simp [ha, hb]
      | succ n =>
        simp only [List.get?] at ha hb
        simpa using ih ys n a b ha hb

/-! ## C9 -/

/-- C9: for every non-empty input close series, the `signal` value produced
by `macd_strategy` on the first row is 0 — the crossing conditions compare
today's ordering with the `shift(1)` ordering, which is NaN on the first
row, and any comparison with NaN is false. -/
theorem macd_strategy_first_row_zero (closes : List ℚ) (h : closes ≠ []) :
    macd_strategy closes 0 = 0 := by
  unfold macd_strategy
  exact macdSignal_zero _ _

/-- Witness for C9 at the concrete series `[1, 2]`. -/
theorem macd_strategy_first_row_zero_app : macd_strategy [1, 2] 0 = 0 :=
  macd_strategy_first_row_zero [1, 2] (by decide)

/-! ## C7 -/

/-- Counterexample to C7 as stated: on the empty input series each
indicator operation returns an ordinary (empty-column) result; nothing is
raised, so the operations do not fail with `InsufficientDataError` (no such
exception class even exists in the source). -/
theorem indicator_empty_input_cex :
    calculate_ma [] [5] = [(5, [])] ∧ calculate_rsi [] 14 = [] ∧
    calculate_macd [] = ([], [], [], [], []) := by
  refine ⟨?_, rfl, rfl⟩
  rfl

/-- C7 amended: on the empty input series the indicator operations return
empty indicator columns (one per requested period) rather than failing;
the source performs no validation of the input length or of the
period/window parameters, and defines neither `InsufficientDataError` nor
`InvalidParameterError`. -/
theorem indicator_empty_input_empty_result (periods : List ℕ) (p : ℕ) :
    calculate_ma [] periods = periods.map (fun q => (q, [])) ∧
    calculate_rsi [] p = [] ∧ calculate_macd [] = ([], [], [], [], []) := by
  refine ⟨?_, rfl, rfl⟩
  simp [calculate_ma, rollingMean]

/-! ## C10 -/

/-- C10 amended: on the empty (zero-row) input frame, `backtest` raises
`KeyError('date')` while building the summary statistics — `pd.DataFrame([])`
has no columns at all, so `set_index('date', inplace=True)` raises before
`iloc[-1]` is ever reached — and returns no stats/trades/portfolio result. -/
theorem empty_backtest_keyerror (c : ℚ) :
    backtest [] c = .error (.keyError "date") := rfl

/-- Counterexample to C10 as stated: the exception raised on the empty
frame is the `KeyError` from `set_index('date')`, not the `IndexError` of
positional indexing that the claim attributes the failure to. -/
theorem empty_backtest_keyerror_cex :
    backtest [] 100000 = .error (.keyError "date") ∧
    PyErr.keyError "date" ≠ PyErr.indexError :=
  ⟨rfl, by decide⟩

/-! ## C4 -/

/-- C4 amended: for every non-empty frame containing neither a `position`
nor a `signal` column, `backtest` fails on the first row with the plain
pandas `KeyError('signal')` from the fallback column lookup — not with
`MissingSignalError`, which the source never defines — and produces no
partial result. -/
theorem missing_columns_keyerror (row : DayRow) (rows : List DayRow) (c : ℚ)
    (hp : row.posVal = none) (hs : row.sigVal = none) :
    backtest (row :: rows) c = .error (.keyError "signal") := by
  have ht : getTrigger row = .error (.keyError "signal") := by
    rw [getTrigger, hp, hs]
  simp [backtest, runDays, stepDay, ht]

/-- Witness for the amended C4 at a concrete one-row frame. -/
theorem missing_columns_keyerror_app :
    backtest [⟨none, none, 10⟩] 100 = .error (.keyError "signal") :=
  missing_columns_keyerror ⟨none, none, 10⟩ [] 100 rfl rfl

/-- Counterexample to C4 as stated: on a frame with neither trigger column
the failure is `KeyError('signal')`, which is not the `MissingSignalError`
the claim requires (that exception class does not exist in the source). -/
theorem missing_signal_keyerror_cex :
    backtest [⟨none, none, 10⟩] 100 = .error (.keyError "signal") ∧
    PyErr.keyError "signal" ≠ PyErr.missingSignalError := by
  constructor
  · rfl
  · decide

/-! ## C3 -/

/-- Counterexample to C3 as stated: initial cash 105, closes `[10, 3]`,
trigger `+1` on both days.  Day 0 buys 10 shares at 10 (cash 5, long 10).
On day 1 the trigger fires while the simulator is already long, yet —
because the buy branch checks only `cash > 0` — a second buy trade of 1
share at 3 is appended: the trade log changes and `trade_count` counts the
day, so re-entry is pyramided. -/
theorem pyramiding_buy_cex :
    (runDays ⟨105, 0, [], []⟩ 0 [⟨none, some (.num 1), 10⟩]).map
        (fun s => (s.position, s.trades.length)) = .ok (10, 1) ∧
    (runDays ⟨105, 0, [], []⟩ 0
        [⟨none, some (.num 1), 10⟩, ⟨none, some (.num 1), 3⟩]).map
        (fun s => (s.position, s.trades.length)) = .ok (11, 2) := by
  constructor <;>
    norm_num [runDays, stepDay, getTrigger, applyTrigger, recordDay, pyEq, pyInt,
      Except.map]

/-- C3 amended: on a day whose trigger is `+1`, no trade occurs exactly
when `cash ≤ 0`; whenever `cash > 0` a buy trade with
`shares = int(cash / close)` (possibly zero shares) is appended even if the
simulator is already long, so re-entry is pyramided whenever leftover cash
allows it. -/
theorem buy_trigger_trade_condition (s : SimState) (d : ℕ) (close : ℚ) :
    (¬ 0 < s.cash → applyTrigger s d close (.num 1) = s) ∧
    (0 < s.cash →
      applyTrigger s d close (.num 1) =
        { s with cash := s.cash - (pyInt (s.cash / close) : ℚ) * close
               , position := s.position + pyInt (s.cash / close)
               , trades := s.trades ++
                   [⟨d, .buy, close, pyInt (s.cash / close),
                     (pyInt (s.cash / close) : ℚ) * close⟩] }) := by
  constructor <;> intro h <;> simp [applyTrigger, pyEq, h]

/-- Witness for the amended C3: with zero cash the `+1` trigger leaves the
state unchanged; with cash 100 and close 10 a buy of 10 shares is logged. -/
theorem buy_trigger_trade_condition_app :
    applyTrigger ⟨0, 5, [], []⟩ 0 10 (.num 1) = ⟨0, 5, [], []⟩ ∧
    applyTrigger ⟨100, 0, [], []⟩ 1 10 (.num 1) =
      ⟨0, 10, [⟨1, .buy, 10, 10, 100⟩], []⟩ := by
  constructor
  · exact (buy_trigger_trade_condition ⟨0, 5, [], []⟩ 0 10).1 (by norm_num)
  · rw [(buy_trigger_trade_condition ⟨100, 0, [], []⟩ 1 10).2 (by norm_num)]
    norm_num [pyInt]

/-! ## C6 -/

/-- Counterexample to C6 as stated: constant closes `[5, 5, 5]` with
period 2.  At row 2 the window is filled, every delta in it is 0 (hence
non-negative) and the trailing mean of losses is exactly 0 — but the
trailing mean of gains is also 0, so `rs = 0 / 0 = NaN` and the RSI value
is NaN, not 100. -/
theorem rsi_zero_loss_nan_cex :
    (rollingMean 2 (lossSeries [5, 5, 5])).get? 2 = some (.fin 0) ∧
    (calculate_rsi [5, 5, 5] 2).get? 2 = some .nan ∧
    FVal.nan ≠ FVal.fin 100 := by
  refine ⟨?_, ?_, by simp⟩
  · norm_num [rollingMean, lossSeries, diffSeries, List.get?]
  · norm_num [calculate_rsi, rollingMean, lossSeries, gainSeries, diffSeries,
      List.get?, fdiv, fadd, fsub]

/-- C6 amended: at every row where the trailing-`p` mean of losses is
exactly 0 and the trailing-`p` mean of gains is positive (at least one
positive delta in the filled window), the RSI value is 100: `rs` is `inf`
and `100 - 100 / (1 + inf) = 100`.  When the gain mean is also 0 the value
is NaN instead (treated downstream as "no signal"). -/
theorem rsi_loss_zero_gain_pos_eq_100 (closes : List ℚ) (p i : ℕ) (g : ℚ)
    (hl : (rollingMean p (lossSeries closes)).get? i = some (.fin 0))
    (hg : (rollingMean p (gainSeries closes)).get? i = some (.fin g))
    (hpos : 0 < g) :
    (calculate_rsi closes p).get? i = some (.fin 100) := by
  have hz := get?_zipWith fdiv _ _ i _ _ hg hl
  simp only [calculate_rsi, List.get?_map, hz, Option.map_some]
  simp [fdiv, fadd, fsub, hpos, not_lt.mpr (le_of_lt hpos)]

/-- Witness for the amended C6: closes `[5, 6, 7]`, period 2, row 2 — the
loss mean is 0, the gain mean is 1, and the RSI value is 100. -/
theorem rsi_loss_zero_gain_pos_eq_100_app :
    (calculate_rsi [5, 6, 7] 2).get? 2 = some (.fin 100) :=
  rsi_loss_zero_gain_pos_eq_100 [5, 6, 7] 2 2 1
    (by norm_num [rollingMean, lossSeries, diffSeries, List.get?])
    (by norm_num [rollingMean, gainSeries, diffSeries, List.get?])
    (by norm_num)

/-! ## C5 -/

/-- Replacing one row by another with the same per-day step behaviour does
not change the simulation loop's outcome. -/
theorem runDays_congr_of_step {row row0 : DayRow}
    (hstep : ∀ s d, stepDay s d row = stepDay s d row0) :
    ∀ (pre : List DayRow) (s : SimState) (d : ℕ) (post : List DayRow),
      runDays s d (pre ++ row :: post) = runDays s d (pre ++ row0 :: post) := by
  intro pre
  induction pre with
  | nil =>
    intro s d post
    simp only [List.nil_append, runDays, hstep s d]
  | cons r rs ih =>
    intro s d post
    simp only [List.cons_append, runDays]
    cases stepDay s d r with
    | error e => rfl
    | ok s' => exact ih s' (d + 1) post

/-- C5: a day whose effective trigger is NaN behaves identically to a 0
(hold) trigger day: the state is unchanged except that the day's equity
`cash + position * close` is still recorded (that is exactly `recordDay`),
no trade is appended, and the whole `backtest` result is the same as with
a 0 trigger on that day. -/
theorem nan_trigger_is_hold (s : SimState) (d : ℕ) (row row0 : DayRow)
    (h : getTrigger row = .ok .nan) (h0 : getTrigger row0 = .ok (.num 0))
    (hc : row0.close = row.close) :
    stepDay s d row = .ok (recordDay s d row.close) ∧
    (∀ (pre post : List DayRow) (c : ℚ),
      backtest (pre ++ row :: post) c = backtest (pre ++ row0 :: post) c) := by
  have hstep : ∀ (t : SimState) (e : ℕ), stepDay t e row = .ok (recordDay t e row.close) := by
    intro t e
    rw [stepDay, h]
    simp [applyTrigger, pyEq]
  have hstep0 : ∀ (t : SimState) (e : ℕ), stepDay t e row0 = .ok (recordDay t e row.close) := by
    intro t e
    rw [stepDay, h0, ← hc]
    norm_num [applyTrigger, pyEq]
  refine ⟨hstep s d, fun pre post c => ?_⟩
  rw [backtest, backtest,
    runDays_congr_of_step (fun t e => (hstep t e).trans (hstep0 t e).symm) pre]

/-- Witness for C5: a one-row frame whose `signal` cell is NaN simulates
exactly like the same frame with a 0 cell. -/
theorem nan_trigger_is_hold_app :
    stepDay ⟨100, 0, [], []⟩ 0 ⟨none, some .nan, 10⟩ =
      .ok (recordDay ⟨100, 0, [], []⟩ 0 10) ∧
    backtest [⟨none, some .nan, 10⟩] 100 = backtest [⟨none, some (.num 0), 10⟩] 100 := by
  have h := nan_trigger_is_hold ⟨100, 0, [], []⟩ 0 ⟨none, some .nan, 10⟩
    ⟨none, some (.num 0), 10⟩ rfl rfl rfl
  exact ⟨h.1, h.2 [] [] 100⟩

/-! ## C1 and C2: loop invariants -/

/-- Python truncation agrees with the floor on nonnegative arguments. -/
theorem pyInt_nonneg {q : ℚ} (h : 0 ≤ q) : 0 ≤ pyInt q := by
  rw [pyInt, if_pos h]
  exact Int.floor_nonneg.mpr h

/-- The all-in sizing never spends more than the available cash:
`int(cash / close) * close ≤ cash` for positive cash and close. -/
theorem pyInt_mul_le {cash close : ℚ} (hcash : 0 < cash) (hclose : 0 < close) :
    (pyInt (cash / close) : ℚ) * close ≤ cash := by
  have hq : 0 ≤ cash / close := le_of_lt (div_pos hcash hclose)
  rw [pyInt, if_pos hq]
  calc ((⌊cash / close⌋ : ℤ) : ℚ) * close
      ≤ (cash / close) * close :=
        mul_le_mul_of_nonneg_right (Int.floor_le _) (le_of_lt hclose)
    _ = cash := div_mul_cancel₀ _ (ne_of_gt hclose)

/-- Recording the day's equity changes no simulator field but the curve. -/
@[simp]
theorem recordDay_cash (s : SimState) (d : ℕ) (c : ℚ) : (recordDay s d c).cash = s.cash := rfl

/-- Recording the day's equity changes no simulator field but the curve. -/
@[simp]
theorem recordDay_position (s : SimState) (d : ℕ) (c : ℚ) :
    (recordDay s d c).position = s.position := rfl

/-- Recording the day's equity changes no simulator field but the curve. -/
@[simp]
theorem recordDay_trades (s : SimState) (d : ℕ) (c : ℚ) :
    (recordDay s d c).trades = s.trades := rfl

/-- The trading rules preserve nonnegative cash and position when the
day's close is positive. -/
theorem applyTrigger_nonneg {s : SimState} {close : ℚ} (d : ℕ) (v : SigVal)
    (hclose : 0 < close) (hcash : 0 ≤ s.cash) (hpos : 0 ≤ s.position) :
    0 ≤ (applyTrigger s d close v).cash ∧ 0 ≤ (applyTrigger s d close v).position := by
  rw [applyTrigger]
  split_ifs with h1 h2 h3 h4
  · refine ⟨sub_nonneg.mpr (pyInt_mul_le h2 hclose), add_nonneg hpos ?_⟩
    exact pyInt_nonneg (le_of_lt (div_pos h2 hclose))
  · exact ⟨hcash, hpos⟩
  · refine ⟨add_nonneg hcash (mul_nonneg ?_ (le_of_lt hclose)), le_refl 0⟩
    exact_mod_cast le_of_lt h4
  · exact ⟨hcash, hpos⟩
  · exact ⟨hcash, hpos⟩

/-- Sum of logged shares over an appended trade log splits. -/
theorem buySharesSum_append (ts us : List Trade) :
    buySharesSum (ts ++ us) = buySharesSum ts + buySharesSum us := by
  simp [buySharesSum, List.filter_append]

/-- Sum of logged shares over an appended trade log splits. -/
theorem sellSharesSum_append (ts us : List Trade) :
    sellSharesSum (ts ++ us) = sellSharesSum ts + sellSharesSum us := by
  simp [sellSharesSum, List.filter_append]

/-- A single buy trade contributes its shares to the buy-side sum only. -/
@[simp]
theorem buySharesSum_buy (d : ℕ) (c : ℚ) (n : ℤ) (v : ℚ) :
    buySharesSum [⟨d, .buy, c, n, v⟩] = n := by
  simp [buySharesSum]

/-- A single buy trade contributes nothing to the sell-side sum. -/
@[simp]
theorem sellSharesSum_buy (d : ℕ) (c : ℚ) (n : ℤ) (v : ℚ) :
    sellSharesSum [⟨d, .buy, c, n, v⟩] = 0 := by
  simp [sellSharesSum]

/-- A single sell trade contributes nothing to the buy-side sum. -/
@[simp]
theorem buySharesSum_sell (d : ℕ) (c : ℚ) (n : ℤ) (v : ℚ) :
    buySharesSum [⟨d, .sell, c, n, v⟩] = 0 := by
  simp [buySharesSum]

/-- A single sell trade contributes its shares to the sell-side sum only. -/
@[simp]
theorem sellSharesSum_sell (d : ℕ) (c : ℚ) (n : ℤ) (v : ℚ) :
    sellSharesSum [⟨d, .sell, c, n, v⟩] = n := by
  simp [sellSharesSum]

/-- The trading rules preserve the ledger identity
`position = (sum of buy shares) - (sum of sell shares)` together with
nonnegativity of the position, when the day's close is positive. -/
theorem applyTrigger_netshares {s : SimState} {close : ℚ} (d : ℕ) (v : SigVal)
    (hclose : 0 < close) (hpos : 0 ≤ s.position)
    (hnet : s.position = buySharesSum s.trades - sellSharesSum s.trades) :
    0 ≤ (applyTrigger s d close v).position ∧
      (applyTrigger s d close v).position =
        buySharesSum (applyTrigger s d close v).trades -
          sellSharesSum (applyTrigger s d close v).trades := by
  rw [applyTrigger]
  split_ifs with h1 h2 h3 h4
  · have hsh : 0 ≤ pyInt (s.cash / close) :=
      pyInt_nonneg (le_of_lt (div_pos h2 hclose))
    refine ⟨add_nonneg hpos hsh, ?_⟩
    simp only [buySharesSum_append, sellSharesSum_append, buySharesSum_buy,
      sellSharesSum_buy]
    omega
  · exact ⟨hpos, hnet⟩
  · refine ⟨le_refl 0, ?_⟩
    simp only [buySharesSum_append, sellSharesSum_append, buySharesSum_sell,
      sellSharesSum_sell]
    omega
  · exact ⟨hpos, hnet⟩
  · exact ⟨hpos, hnet⟩

/-- A successful step is the recorded state after the day's trading rules. -/
theorem stepDay_ok {s s' : SimState} {d : ℕ} {row : DayRow}
    (h : stepDay s d row = .ok s') :
    ∃ v, getTrigger row = .ok v ∧ s' = recordDay (applyTrigger s d row.close v) d row.close := by
  rw [stepDay] at h
  cases hg : getTrigger row with
  | error e => rw [hg] at h; exact absurd h (by simp)
  | ok v =>
    rw [hg] at h
    injection h with h
    exact ⟨v, rfl, h.symm⟩

/-- The simulation loop preserves nonnegative cash and position when all
closes are positive. -/
theorem runDays_nonneg :
    ∀ (rows : List DayRow), (∀ r ∈ rows, 0 < r.close) →
      ∀ (s : SimState) (d : ℕ) (s' : SimState), 0 ≤ s.cash → 0 ≤ s.position →
        runDays s d rows = .ok s' → 0 ≤ s'.cash ∧ 0 ≤ s'.position := by
  intro rows
  induction rows with
  | nil =>
    intro _ s d s' h1 h2 h
    rw [runDays] at h
    injection h with h
    exact h ▸ ⟨h1, h2⟩
  | cons r rs ih =>
    intro hrows s d s' h1 h2 h
    rw [runDays] at h
    cases hst : stepDay s d r with
    | error e => rw [hst] at h; exact absurd h (by simp)
    | ok t =>
      rw [hst] at h
      obtain ⟨v, _, ht⟩ := stepDay_ok hst
      have hr : 0 < r.close := hrows r (List.mem_cons_self r rs)
      have hinv := applyTrigger_nonneg d v hr h1 h2
      refine ih (fun x hx => hrows x (List.mem_cons_of_mem r hx)) t (d + 1) s' ?_ ?_ h
      · rw [ht]; simpa using hinv.1
      · rw [ht]; simpa using hinv.2

/-- The simulation loop preserves the ledger identity and nonnegative
position when all closes are positive. -/
theorem runDays_netshares :
    ∀ (rows : List DayRow), (∀ r ∈ rows, 0 < r.close) →
      ∀ (s : SimState) (d : ℕ) (s' : SimState), 0 ≤ s.position →
        s.position = buySharesSum s.trades - sellSharesSum s.trades →
        runDays s d rows = .ok s' →
        0 ≤ s'.position ∧
          s'.position = buySharesSum s'.trades - sellSharesSum s'.trades := by
  intro rows
  induction rows with
  | nil =>
    intro _ s d s' h1 h2 h
    rw [runDays] at h
    injection h with h
    exact h ▸ ⟨h1, h2⟩
  | cons r rs ih =>
    intro hrows s d s' h1 h2 h
    rw [runDays] at h
    cases hst : stepDay s d r with
    | error e => rw [hst] at h; exact absurd h (by simp)
    | ok t =>
      rw [hst] at h
      obtain ⟨v, _, ht⟩ := stepDay_ok hst
      have hr : 0 < r.close := hrows r (List.mem_cons_self r rs)
      have hinv := applyTrigger_netshares d v hr h1 h2
      refine ih (fun x hx => hrows x (List.mem_cons_of_mem r hx)) t (d + 1) s' ?_ ?_ h
      · rw [ht]; simpa using hinv.1
      · rw [ht]; simpa using hinv.2

/-! ## C1 -/

/-- C1: for every signal frame whose closes are all positive and every
nonnegative initial cash, the simulated cash is nonnegative at every
recorded equity-curve point — the state reached after any `n`-day prefix of
the simulation (which is exactly the state whose cash enters the `n`-th
recorded `cash + position * close` value) has `cash ≥ 0`, because the
floor-division sizing guarantees `cost = shares * close ≤ cash`. -/
theorem backtest_cash_nonneg (rows : List DayRow) (initial_cash : ℚ)
    (hclose : ∀ r ∈ rows, 0 < r.close) (hcash : 0 ≤ initial_cash)
    (n : ℕ) (s : SimState)
    (h : runDays ⟨initial_cash, 0, [], []⟩ 0 (rows.take n) = .ok s) :
    0 ≤ s.cash :=
  (runDays_nonneg (rows.take n)
    (fun r hr => hclose r (List.take_subset n rows hr))
    ⟨initial_cash, 0, [], []⟩ 0 s hcash le_rfl h).1

/-- Witness for C1: a one-day all-in buy at close 10 from cash 100 leaves
cash 0, which is nonnegative. -/
theorem backtest_cash_nonneg_app :
    0 ≤ (⟨0, 10, [⟨0, Side.buy, 10, 10, 100⟩], [(0, 100)]⟩ : SimState).cash :=
  backtest_cash_nonneg [⟨none, some (.num 1), 10⟩] 100 (by norm_num) (by norm_num) 1
    ⟨0, 10, [⟨0, Side.buy, 10, 10, 100⟩], [(0, 100)]⟩
    (by norm_num [runDays, stepDay, getTrigger, applyTrigger, recordDay, pyEq, pyInt])

/-! ## C2 -/

/-- C2: for every signal frame whose closes are all positive, the position
is nonnegative after every simulated day (the state after any `n`-day
prefix), and at simulation end (any `n` at least the frame length, in
particular `n` = length) the position equals the sum of shares over buy
trades minus the sum of shares over sell trades of the trade log. -/
theorem backtest_position_nonneg_netshares (rows : List DayRow) (initial_cash : ℚ)
    (hclose : ∀ r ∈ rows, 0 < r.close) (n : ℕ) (s : SimState)
    (h : runDays ⟨initial_cash, 0, [], []⟩ 0 (rows.take n) = .ok s) :
    0 ≤ s.position ∧
      s.position = buySharesSum s.trades - sellSharesSum s.trades :=
  runDays_netshares (rows.take n)
    (fun r hr => hclose r (List.take_subset n rows hr))
    ⟨initial_cash, 0, [], []⟩ 0 s le_rfl (by simp [buySharesSum, sellSharesSum]) h

/-- Witness for C2 on the specification's worked example: closes
`[10, 12, 8]`, triggers `[+1, 0, -1]`, cash 100 — the final position is 0
and equals 10 bought minus 10 sold. -/
theorem backtest_position_nonneg_netshares_app :
    0 ≤ (⟨80, 0, [⟨0, Side.buy, 10, 10, 100⟩, ⟨2, Side.sell, 8, 10, 80⟩],
        [(0, 100), (1, 120), (2, 80)]⟩ : SimState).position ∧
      (⟨80, 0, [⟨0, Side.buy, 10, 10, 100⟩, ⟨2, Side.sell, 8, 10, 80⟩],
        [(0, 100), (1, 120), (2, 80)]⟩ : SimState).position =
        buySharesSum [⟨0, Side.buy, 10, 10, 100⟩, ⟨2, Side.sell, 8, 10, 80⟩] -
          sellSharesSum [⟨0, Side.buy, 10, 10, 100⟩, ⟨2, Side.sell, 8, 10, 80⟩] :=
  backtest_position_nonneg_netshares
    [⟨none, some (.num 1), 10⟩, ⟨none, some (.num 0), 12⟩, ⟨none, some (.num (-1)), 8⟩]
    100 (by norm_num) 3
    ⟨80, 0, [⟨0, Side.buy, 10, 10, 100⟩, ⟨2, Side.sell, 8, 10, 80⟩],
      [(0, 100), (1, 120), (2, 80)]⟩
    (by norm_num [runDays, stepDay, getTrigger, applyTrigger, recordDay, pyEq, pyInt])

/-! ## C8 -/

end StockApp
